import Mathlib

/-
Formal model of the bareBlog core (src/app.py, src/import_wp.py,
src/config.py): the storage accessor, the post repository and the
WordPress WXR importer, together with theorems about slug uniqueness,
save/find round-trips, sort order, excerpt derivation and default
filling.

Modelling conventions:
* Python strings, lists and dicts are embedded as String, List and
  association lists; machine integers as Int / Nat.
* String routines (strip, slugify, date parsing) are modelled for ASCII
  data; transliteration of non-ASCII input, HTML character entities and
  timezone-aware date strings are out of scope (the application itself
  only ever writes naive ASCII ISO dates, and the importer strips
  timezones before formatting).
* Every call of datetime.utcnow() is modelled by an explicit String
  parameter named now.
* The markdown renderer is an external library; it is passed to
  handle_post_save as an abstract function parameter renderMd.
-/

/-! ## Python string primitives -/

/-- ASCII whitespace as recognised by Python str.strip() with no
arguments: space, tab, newline, carriage return, vertical tab, form
feed. -/
def pyIsSpace (c : Char) : Bool :=
  c = ' ' || c = '\t' || c = '\n' || c = '\r' || c = '\x0b' || c = '\x0c'

/-- Python str.lstrip() on a character list. -/
def pyLstripL (cs : List Char) : List Char := cs.dropWhile pyIsSpace

/-- Python str.rstrip() on a character list. -/
def pyRstripL (cs : List Char) : List Char := (cs.reverse.dropWhile pyIsSpace).reverse

/-- Python str.strip(): remove leading and trailing whitespace. -/
def pyStrip (s : String) : String := ⟨pyRstripL (pyLstripL s.data)⟩

/-- Python str.rstrip(): remove trailing whitespace. -/
def pyRstrip (s : String) : String := ⟨pyRstripL s.data⟩

/-! ## slugify (python-slugify, modelled for ASCII input)

The library pipeline for ASCII input with default options is: replace
quotes by the separator, lowercase, drop commas standing between two
digits (NUMBERS_PATTERN), replace every run of characters outside
[-a-z0-9] by "-" (ALLOWED_CHARS_PATTERN), collapse repeated dashes and
strip dashes at both ends.  Unidecode transliteration and HTML entities
do not act on ASCII input and are not modelled. -/

/-- Characters kept by the slug: lowercase ASCII letters and digits. -/
def isSlugChar (c : Char) : Bool :=
  ('a' ≤ c && c ≤ 'z') || ('0' ≤ c && c ≤ '9')

/-- Worker for NUMBERS_PATTERN: the first argument is the character
before the rest of the input; a comma standing between two digits is
deleted. -/
def rdcGo : Char → List Char → List Char
  | a, [] => [a]
  | a, ',' :: [] => [a, ',']
  | a, ',' :: b :: rest =>
    if a.isDigit && b.isDigit then a :: rdcGo b rest
    else a :: rdcGo ',' (b :: rest)
  | a, c :: rest => a :: rdcGo c rest

/-- NUMBERS_PATTERN of python-slugify: a comma with a digit on both
sides is deleted. -/
def removeDigitCommas : List Char → List Char
  | [] => []
  | c :: cs => rdcGo c cs

/-- Worker collapsing runs of dashes (DUPLICATE_DASH_PATTERN); the
first argument is the pending character. -/
def cdGo : Char → List Char → List Char
  | a, [] => [a]
  | '-', '-' :: rest => cdGo '-' rest
  | a, c :: rest => a :: cdGo c rest

/-- Collapse runs of dashes to a single dash. -/
def collapseDashes : List Char → List Char
  | [] => []
  | c :: cs => cdGo c cs

/-- Python str.strip("-"). -/
def trimDashes (cs : List Char) : List Char :=
  ((cs.dropWhile (· = '-')).reverse.dropWhile (· = '-')).reverse

/-- slugify from python-slugify with default options, for ASCII text. -/
def slugify (s : String) : String :=
  ⟨trimDashes (collapseDashes
    ((removeDigitCommas (s.data.map Char.toLower)).map
      (fun c => if isSlugChar c then c else '-')))⟩

/-! ## build_excerpt (app.py lines 156-160) -/

/-- State machine for re.sub of the tag pattern (an opening angle
bracket, one or more characters other than a closing angle bracket,
then a closing angle bracket) with the empty replacement.  The second
argument is none outside a candidate match, and holds the reversed
characters consumed since an opening bracket while inside one; an
opening bracket immediately followed by a closing one is not a match
and is emitted, and an unterminated opening bracket is emitted with
the consumed characters at the end of the input.  This single pass
agrees with the leftmost non-overlapping regex matches because a
candidate match ends at the first closing bracket after its opening
one. -/
def stripTagsGo : List Char → Option (List Char) → List Char
  | [], none => []
  | [], some pending => '<' :: pending.reverse
  | c :: cs, none =>
    if c = '<' then stripTagsGo cs (some [])
    else c :: stripTagsGo cs none
  | c :: cs, some pending =>
    if c = '>' then
      if pending = [] then '<' :: '>' :: stripTagsGo cs none
      else stripTagsGo cs none
    else stripTagsGo cs (some (c :: pending))

/-- Tag stripping of build_excerpt. -/
def stripTagsL (cs : List Char) : List Char := stripTagsGo cs none

/-- The three-character suffix appended by build_excerpt.  The source
file of the repository contains the literal mojibake bytes for these
three characters, so the suffix is modelled exactly as those three
characters. -/
def excerptMarker : String := "â€¦"

/-- build_excerpt from app.py: strip tags, strip surrounding
whitespace, and truncate to the given length with a marker when the
text is longer. -/
def build_excerpt (html : String) (length : Nat := 220) : String :=
  let text := pyStrip ⟨stripTagsL html.data⟩
  if text.length ≤ length then text
  else pyRstrip ⟨text.data.take length⟩ ++ excerptMarker

/-! ## Date parsing (app.py parse_date, lines 88-99)

Python datetime values are embedded as their component tuple
(year, month, day, hour, minute, second, microsecond), encoded
injectively and order-preservingly into Nat for in-range components.
The three recognised sources are strptime with format
"%Y-%m-%dT%H:%M:%S", strptime with format "%Y-%m-%d %H:%M:%S", and a
naive-datetime subset of datetime.fromisoformat. -/

structure DT where
  y : Nat
  m : Nat
  d : Nat
  hh : Nat
  mm : Nat
  ss : Nat
  us : Nat
deriving Repr, DecidableEq

/-- Order-preserving encoding of an in-range datetime tuple. -/
def dtEncode (t : DT) : Nat :=
  (((((t.y * 13 + t.m) * 32 + t.d) * 24 + t.hh) * 60 + t.mm) * 60 + t.ss) * 1000000 + t.us

/-- Encoding of datetime.min, that is year 1, month 1, day 1. -/
def dtMin : Nat := dtEncode ⟨1, 1, 1, 0, 0, 0, 0⟩

def digitVal (c : Char) : Nat := c.toNat - '0'.toNat

/-- Exactly four digits, as the strptime directive for the year. -/
def parse4 : List Char → Option (Nat × List Char)
  | a :: b :: c :: d :: rest =>
    if a.isDigit && b.isDigit && c.isDigit && d.isDigit then
      some (((digitVal a * 10 + digitVal b) * 10 + digitVal c) * 10 + digitVal d, rest)
    else none
  | _ => none

/-- Exactly two digits, as fromisoformat requires for month, day and
time components. -/
def parse2 : List Char → Option (Nat × List Char)
  | a :: b :: rest =>
    if a.isDigit && b.isDigit then some (digitVal a * 10 + digitVal b, rest)
    else none
  | _ => none

/-- Two digits or one digit, following the strptime regular
expressions: the two-digit alternatives are tried first, then a single
digit.  Since every numeric field is followed by a non-digit literal or
the end of the string, this greedy strategy agrees with the regex
backtracking of Python strptime. -/
def parseNum2or1 (ok2 ok1 : Nat → Bool) : List Char → Option (Nat × List Char)
  | a :: b :: rest =>
    if a.isDigit && b.isDigit && ok2 (digitVal a * 10 + digitVal b) then
      some (digitVal a * 10 + digitVal b, rest)
    else if a.isDigit && ok1 (digitVal a) then some (digitVal a, b :: rest)
    else none
  | [a] => if a.isDigit && ok1 (digitVal a) then some (digitVal a, []) else none
  | [] => none

def parseCharL (c : Char) : List Char → Option (List Char)
  | x :: rest => if x = c then some rest else none
  | [] => none

def isLeap (y : Nat) : Bool := y % 4 = 0 && (y % 100 ≠ 0 || y % 400 = 0)

def daysInMonth (y m : Nat) : Nat :=
  if m = 2 then (if isLeap y then 29 else 28)
  else if m = 4 || m = 6 || m = 9 || m = 11 then 30
  else 31

/-- Validation performed by the datetime constructor. -/
def mkValidDT (y m d hh mm ss us : Nat) : Option DT :=
  if 1 ≤ y && 1 ≤ m && m ≤ 12 && 1 ≤ d && d ≤ daysInMonth y m
      && hh ≤ 23 && mm ≤ 59 && ss ≤ 59 && us ≤ 999999 then
    some ⟨y, m, d, hh, mm, ss, us⟩
  else none

/-- Field part of strptime with format "%Y-%m-%d{sep}%H:%M:%S", where
sep is the literal separator (the letter T or a space for the formats
used by the repository), returning the unconsumed remainder. -/
def parseStrptimeCore (sep : Char) (s : String) :
    Option (Nat × Nat × Nat × Nat × Nat × Nat × List Char) := do
  let (y, r) ← parse4 s.data
  let r ← parseCharL '-' r
  let (m, r) ← parseNum2or1 (fun n => 1 ≤ n && n ≤ 12) (fun n => 1 ≤ n) r
  let r ← parseCharL '-' r
  let (d, r) ← parseNum2or1 (fun n => 1 ≤ n && n ≤ 31) (fun n => 1 ≤ n) r
  let r ← parseCharL sep r
  let (hh, r) ← parseNum2or1 (fun n => n ≤ 23) (fun _ => true) r
  let r ← parseCharL ':' r
  let (mm, r) ← parseNum2or1 (fun n => n ≤ 59) (fun _ => true) r
  let r ← parseCharL ':' r
  let (ss, r) ← parseNum2or1 (fun n => n ≤ 61) (fun _ => true) r
  some (y, m, d, hh, mm, ss, r)

/-- strptime with format "%Y-%m-%d{sep}%H:%M:%S": the whole string
must be consumed and the datetime constructor must accept the
components. -/
def parseStrptime (sep : Char) (s : String) : Option DT := do
  let (y, m, d, hh, mm, ss, r) ← parseStrptimeCore sep s
  if r = [] then mkValidDT y m d hh mm ss 0 else none

/-- The %z directive of strptime: the letter Z or a sign followed by a
two-digit hour and two-digit minutes with an optional colon.  The
offset value is discarded by to_iso, which strips the timezone, so
only the shape is checked. -/
def parseTzOk : List Char → Bool
  | ['Z'] => true
  | s₁ :: h1 :: h2 :: rest =>
    (s₁ = '+' || s₁ = '-') && h1.isDigit && h2.isDigit &&
      (match rest with
       | [m1, m2] => m1.isDigit && m2.isDigit
       | [':', m1, m2] => m1.isDigit && m2.isDigit
       | _ => false)
  | _ => false

/-- strptime with format "%Y-%m-%d %H:%M:%S%z" followed by the
tzinfo-stripping replace performed by to_iso. -/
def parseStrptimeTzSpace (s : String) : Option DT := do
  let (y, m, d, hh, mm, ss, r) ← parseStrptimeCore ' ' s
  if parseTzOk r then mkValidDT y m d hh mm ss 0 else none

/-- Value in microseconds of a fractional-second digit string, using
the first six digits padded on the right. -/
def fracToUs (ds : List Char) : Nat :=
  ((ds.take 6).foldl (fun n c => n * 10 + digitVal c) 0) * 10 ^ (6 - (ds.take 6).length)

/-- One or more fraction digits after the decimal point. -/
def parseFrac (cs : List Char) : Option (Nat × List Char) :=
  let ds := cs.takeWhile Char.isDigit
  if ds = [] then none else some (fracToUs ds, cs.dropWhile Char.isDigit)

/-- Tail of the time part of the fromisoformat subset, after the
two-digit hour has been read. -/
def parseIsoTimeTail (y m d hh : Nat) : List Char → Option DT
  | [] => mkValidDT y m d hh 0 0 0
  | ':' :: r => do
    let (mm, r2) ← parse2 r
    match r2 with
    | [] => mkValidDT y m d hh mm 0 0
    | ':' :: r3 => do
      let (ss, r4) ← parse2 r3
      match r4 with
      | [] => mkValidDT y m d hh mm ss 0
      | c :: r5 =>
        if c = '.' || c = ',' then do
          let (us, r6) ← parseFrac r5
          if r6 = [] then mkValidDT y m d hh mm ss us else none
        else none
    | _ => none
  | _ => none

/-- Subset of datetime.fromisoformat for naive extended-format
datetimes: a zero-padded date, optionally followed by one separator
character of any kind and a time of hours, optional minutes, optional
seconds and an optional fraction.  Basic-format and timezone-aware
strings are outside the modelled scope. -/
def parseIso (s : String) : Option DT := do
  let (y, r) ← parse4 s.data
  let r ← parseCharL '-' r
  let (m, r) ← parse2 r
  let r ← parseCharL '-' r
  let (d, r) ← parse2 r
  match r with
  | [] => mkValidDT y m d 0 0 0 0
  | _sep :: r2 => do
    let (hh, r3) ← parse2 r2
    parseIsoTimeTail y m d hh r3

/-- parse_date from app.py: missing or falsy input gives datetime.min,
then the two strptime formats are tried, then fromisoformat, and any
remaining failure gives datetime.min. -/
def parse_date (dateStr : Option String) : Nat :=
  match dateStr with
  | none => dtMin
  | some s =>
    if s = "" then dtMin
    else
      match parseStrptime 'T' s with
      | some t => dtEncode t
      | none =>
        match parseStrptime ' ' s with
        | some t => dtEncode t
        | none =>
          match parseIso s with
          | some t => dtEncode t
          | none => dtMin

/-! ## Data model (spec section 3, payload shape of app.py lines 342-357) -/

structure Post where
  id : Int
  slug : String
  title : String
  date : Option String
  modified : String
  status : String
  tags : List String
  categories : List String
  content_markdown : String
  content_html : String
  excerpt : String
  author : String
deriving Repr, DecidableEq

structure NavLink where
  label : String
  url : String
  target : String
deriving Repr, DecidableEq

structure Settings where
  nav_links : List NavLink
  main_title : String
deriving Repr, DecidableEq

structure Page where
  title : String
  slug : String
  content_html : String
  content_markdown : String
  updated : String
deriving Repr, DecidableEq

structure Document where
  posts : List Post
  pages : List (String × Page)
  settings : Settings
deriving Repr, DecidableEq

/-- Constants from config.py (default values; environment overrides
are deployment configuration outside the model). -/
def SITE_DESCRIPTION : String := "bareblog description"

def DEFAULT_MAIN_TITLE : String := SITE_DESCRIPTION

def ADMIN_USER : String := "admin@bareblog.com"

def DEFAULT_NAV_LINKS : List NavLink :=
  [⟨"About", "/about", "_self"⟩, ⟨"Contact", "mailto:", "_self"⟩,
   ⟨"LinkedIn", "", "_blank"⟩, ⟨"GitHub", "", "_blank"⟩]

/-! ## Post repository (app.py lines 76-99, 149-153, 185-187) -/

/-- Comparator used by load_posts: sorted with key parse_date and
reverse=True is the stable sort for this descending relation. -/
def postLe (a b : Post) : Bool := decide (parse_date b.date ≤ parse_date a.date)

/-- load_posts: the stored posts ordered by parsed date descending,
stable in the original order. -/
def load_posts (doc : Document) : List Post := doc.posts.mergeSort postLe

/-- get_post_by_slug: first post of load_posts whose slug matches. -/
def get_post_by_slug (slug : String) (doc : Document) : Option Post :=
  (load_posts doc).find? (fun p => p.slug == slug)

/-- next_id: one more than the maximal stored id, and 1 for an empty
collection. -/
def next_id (posts : List Post) : Int :=
  match posts with
  | [] => 1
  | p :: ps => (ps.foldl (fun m q => max m q.id) p.id) + 1

/-! ## handle_post_save (app.py lines 290-370)

The resolution steps are factored into named definitions mirroring the
successive local variables of the Python function. -/

/-- The submitted form: request.form.get with a missing key modelled
as none. -/
structure Form where
  title : Option String := none
  slug : Option String := none
  content_markdown : Option String := none
  content_html : Option String := none
  date : Option String := none
  tags : Option String := none
  categories : Option String := none
  status : Option String := none
  excerpt : Option String := none
deriving Repr, DecidableEq

inductive SaveError where
  | titleRequired
  | slugEmpty
  | slugExists
deriving Repr, DecidableEq

/-- Step 1: title = request.form.get("title", "").strip(). -/
def resolved_title (form : Form) : String := pyStrip (form.title.getD "")

/-- Step 2: slug resolution; the explicit input, else the slug of the
post being edited, else the slugified title; the result is slugified
again. -/
def resolved_slug (form : Form) (existing : Option Post) : String :=
  let slug_input := pyStrip (form.slug.getD "")
  slugify (if slug_input ≠ "" then slug_input
           else match existing with
                | some e => e.slug
                | none => slugify (resolved_title form))

/-- md_body = request.form.get("content_markdown", "").strip(). -/
def resolved_md (form : Form) : String := pyStrip (form.content_markdown.getD "")

/-- Step 4: body HTML, rendered from markdown when markdown is given,
else the submitted HTML, else the stored HTML when editing. -/
def resolved_html (renderMd : String → String) (form : Form) (existing : Option Post) : String :=
  let md_body := resolved_md form
  let html_body := pyStrip (form.content_html.getD "")
  if md_body ≠ "" then renderMd md_body
  else if html_body = "" then
    match existing with
    | some e => e.content_html
    | none => html_body
  else html_body

/-- Step 5: the submitted date, with the current time substituted when
it is empty or unparseable. -/
def resolved_date (now : String) (form : Form) : String :=
  let d₀ := pyStrip (form.date.getD "")
  let d₁ := if d₀ = "" then now else d₀
  if parse_date (some d₁) = dtMin then now else d₁

/-- Step 6: comma-separated input, trimmed, empties dropped, order
kept. -/
def splitCommaTrim (s : String) : List String :=
  ((s.splitOn ",").map pyStrip).filter (fun t => t ≠ "")

def resolved_tags (form : Form) : List String := splitCommaTrim (form.tags.getD "")

def resolved_categories (form : Form) : List String := splitCommaTrim (form.categories.getD "")

def resolved_status (form : Form) : String := form.status.getD "publish"

/-- Step 7: the explicit excerpt, else build_excerpt of the body HTML
when the body is nonempty. -/
def resolved_excerpt (renderMd : String → String) (form : Form) (existing : Option Post) : String :=
  let excerpt := pyStrip (form.excerpt.getD "")
  let html_body := resolved_html renderMd form existing
  if excerpt = "" && html_body ≠ "" then build_excerpt html_body else excerpt

/-- Step 8: the id is kept for an edit and freshly assigned for a new
post. -/
def resolved_id (posts : List Post) (existing : Option Post) : Int :=
  match existing with
  | some e => e.id
  | none => next_id posts

def resolved_author (existing : Option Post) : String :=
  match existing with
  | some e => e.author
  | none => ADMIN_USER

/-- The payload dict assembled by handle_post_save. -/
def resolved_payload (renderMd : String → String) (now : String) (form : Form)
    (existing : Option Post) (posts : List Post) : Post :=
  { id := resolved_id posts existing
    slug := resolved_slug form existing
    title := resolved_title form
    date := some (resolved_date now form)
    modified := now
    status := resolved_status form
    tags := resolved_tags form
    categories := resolved_categories form
    content_markdown := resolved_md form
    content_html := resolved_html renderMd form existing
    excerpt := resolved_excerpt renderMd form existing
    author := resolved_author existing }

/-- The collision test of the uniqueness loop: another post owns the
resolved slug, where for an edit the post being edited itself does not
count. -/
def collides (slug_value : String) (existing : Option Post) (p : Post) : Bool :=
  p.slug == slug_value &&
    (match existing with
     | none => true
     | some e => decide (p.id ≠ e.id))

/-- Replace-in-place: the first post whose id matches is replaced;
mirrors the for loop with break of app.py lines 359-363. -/
def replaceFirstById (posts : List Post) (i : Int) (pay : Post) : List Post :=
  match posts with
  | [] => []
  | p :: ps => if p.id = i then pay :: ps else p :: replaceFirstById ps i pay

/-- handle_post_save: returns the document held by storage after the
call together with the signalled validation error, if any.  The error
branches of the Python function return a redirect without calling
save_posts, so they leave the document unchanged. -/
def handle_post_save (renderMd : String → String) (now : String)
    (form : Form) (existing : Option Post) (doc : Document) :
    Document × Option SaveError :=
  let posts := load_posts doc
  if resolved_title form = "" then (doc, some .titleRequired)
  else
    let slug_value := resolved_slug form existing
    if slug_value = "" then (doc, some .slugEmpty)
    else if posts.any (collides slug_value existing) then (doc, some .slugExists)
    else
      let payload := resolved_payload renderMd now form existing posts
      let posts' :=
        match existing with
        | some e => replaceFirstById posts e.id payload
        | none => posts ++ [payload]
      ({ doc with posts := posts' }, none)

/-! ## WordPress importer (import_wp.py) -/

/-- One category element of a channel item: its domain attribute and
its text, both possibly absent. -/
structure WpCategory where
  domain : Option String := none
  text : Option String := none
deriving Repr, DecidableEq

/-- One channel item; each field is the text of the corresponding
child element, none when the element is absent (findtext default). -/
structure WpItem where
  post_type : Option String := none
  status : Option String := none
  post_id : Option String := none
  title : Option String := none
  post_name : Option String := none
  post_date : Option String := none
  content_encoded : Option String := none
  excerpt_encoded : Option String := none
  creator : Option String := none
  categories : List WpCategory := []
deriving Repr, DecidableEq

/-- Python int() on a string: surrounding whitespace, an optional
sign, then decimal digits (digit-group underscores are out of the
modelled scope). -/
def natOfDigits? (cs : List Char) : Option Nat :=
  if cs ≠ [] && cs.all Char.isDigit then
    some (cs.foldl (fun n c => n * 10 + digitVal c) 0)
  else none

def pyInt (s : String) : Option Int :=
  match pyRstripL (pyLstripL s.data) with
  | '+' :: ds => (natOfDigits? ds).map Int.ofNat
  | '-' :: ds => (natOfDigits? ds).map (fun n => -(n : Int))
  | ds => (natOfDigits? ds).map Int.ofNat

/-- Python str.title(): a letter after a non-letter is uppercased,
other letters are lowercased (ASCII scope). -/
def pyTitleGo : List Char → Bool → List Char
  | [], _ => []
  | c :: cs, prevAlpha =>
    if c.isAlpha then (if prevAlpha then c.toLower else c.toUpper) :: pyTitleGo cs true
    else c :: pyTitleGo cs false

def pyTitle (s : String) : String := ⟨pyTitleGo s.data false⟩

/-- Formatting performed by datetime.isoformat for naive datetimes. -/
def pad2 (n : Nat) : String := if n < 10 then "0" ++ toString n else toString n

def pad4 (n : Nat) : String :=
  if n < 10 then "000" ++ toString n
  else if n < 100 then "00" ++ toString n
  else if n < 1000 then "0" ++ toString n
  else toString n

def pad6 (n : Nat) : String :=
  if n < 10 then "00000" ++ toString n
  else if n < 100 then "0000" ++ toString n
  else if n < 1000 then "000" ++ toString n
  else if n < 10000 then "00" ++ toString n
  else if n < 100000 then "0" ++ toString n
  else toString n

def fmtIso (t : DT) : String :=
  pad4 t.y ++ "-" ++ pad2 t.m ++ "-" ++ pad2 t.d ++ "T" ++ pad2 t.hh ++ ":"
    ++ pad2 t.mm ++ ":" ++ pad2 t.ss
    ++ (if t.us = 0 then "" else "." ++ pad6 t.us)

/-- to_iso from import_wp.py: the space-separated format, then the
same format with a trailing timezone (stripped), then fromisoformat,
with the current time as last resort. -/
def to_iso (now : String) (date_str : String) : String :=
  match parseStrptime ' ' date_str with
  | some t => fmtIso t
  | none =>
    match parseStrptimeTzSpace date_str with
    | some t => fmtIso t
    | none =>
      match parseIso date_str with
      | some t => fmtIso t
      | none => now

/-- One turn of the category loop of parse_posts (import_wp.py lines
74-82): skip empty labels, then route by the domain attribute. -/
def wpLabelStep (acc : List String × List String) (cat : WpCategory) :
    List String × List String :=
  let label := pyStrip (cat.text.getD "")
  if label = "" then acc
  else if cat.domain.getD "" = "post_tag" then (acc.1 ++ [label], acc.2)
  else if cat.domain.getD "" = "category" then (acc.1, acc.2 ++ [label])
  else acc

/-- The category loop of parse_posts: tags and categories collected in
document order. -/
def wpLabels (cats : List WpCategory) : List String × List String :=
  cats.foldl wpLabelStep ([], [])

/-- The body of the item loop of parse_posts for an item of post type
"post"; a post id that int() cannot parse raises, modelled as error. -/
def wpItemPost (now : String) (item : WpItem) : Except Unit Post :=
  match (match item.post_id.getD "0" with
         | "" => some (0 : Int)
         | s => pyInt s) with
  | none => .error ()
  | some pid =>
    let title := item.title.getD ""
    let pn := item.post_name.getD ""
    let slug_val := if pn ≠ "" then pn else slugify title
    let post_date := item.post_date.getD ""
    let date_iso := if post_date ≠ "" then to_iso now post_date else now
    let labels := wpLabels item.categories
    .ok { id := pid
          slug := slug_val
          title := title
          date := some date_iso
          modified := date_iso
          status := item.status.getD "publish"
          tags := labels.1
          categories := labels.2
          content_markdown := ""
          content_html := item.content_encoded.getD ""
          excerpt := item.excerpt_encoded.getD ""
          author := item.creator.getD "" }

/-- The item loop of parse_posts: items whose post type is not "post"
are skipped. -/
def parseItemsGo (now : String) : List WpItem → Except Unit (List Post)
  | [] => .ok []
  | item :: rest =>
    if item.post_type.getD "" = "post" then
      match wpItemPost now item with
      | .error e => .error e
      | .ok p => (parseItemsGo now rest).map (p :: ·)
    else parseItemsGo now rest

/-- Python string comparison: lexicographic on code points. -/
def pyStrLeL : List Char → List Char → Bool
  | [], _ => true
  | _ :: _, [] => false
  | a :: as, b :: bs =>
    if a.toNat < b.toNat then true
    else if a = b then pyStrLeL as bs
    else false

/-- The final sort of parse_posts: by the date string, descending,
stable (lexicographic string comparison, not timestamp parsing). -/
def wpDateLe (a b : Post) : Bool := pyStrLeL (b.date.getD "").data (a.date.getD "").data

def parse_posts (now : String) (items : List WpItem) : Except Unit (List Post) :=
  (parseItemsGo now items).map (fun ps => ps.mergeSort wpDateLe)

/-- Assignment pages[slug] = value on a Python dict: overwrite in
place when the key exists, else append. -/
def dictInsertPage (k : String) (v : Page) (l : List (String × Page)) : List (String × Page) :=
  if l.any (fun kv => kv.1 == k) then
    l.map (fun kv => if kv.1 == k then (kv.1, v) else kv)
  else l ++ [(k, v)]

def parse_pages (now : String) (items : List WpItem) : List (String × Page) :=
  items.foldl
    (fun pages item =>
      if item.post_type.getD "" = "page" then
        let slug_val := item.post_name.getD ""
        let title := item.title.getD ""
        if slug_val ≠ "" then
          dictInsertPage slug_val
            { title := if title ≠ "" then title else pyTitle slug_val
              slug := slug_val
              content_html := item.content_encoded.getD ""
              content_markdown := ""
              updated := now } pages
        else pages
      else pages)
    []

/-- Full import (main of import_wp.py): the document written over the
backing file, with default navigation and an empty main title. -/
def wp_full_import (now : String) (items : List WpItem) : Except Unit Document :=
  (parse_posts now items).map
    (fun posts =>
      { posts := posts
        pages := parse_pages now items
        settings := { nav_links := DEFAULT_NAV_LINKS, main_title := "" } })

/-! ## Storage accessor (app.py lines 39-73)

The backing file is modelled at the JSON level: its state is either
absent, or present with contents that decode to a JSON value, or
present with malformed contents on which json.load raises. -/

inductive Json where
  | null
  | bool (b : Bool)
  | num (n : Int)
  | str (s : String)
  | arr (elems : List Json)
  | obj (entries : List (String × Json))

/-- Lookup of a key in a decoded JSON object (decoded dicts have
unique keys, so first match suffices). -/
def lookupJ (k : String) : List (String × Json) → Option Json
  | [] => none
  | (k', v) :: rest => if k' = k then some v else lookupJ k rest

/-- Python dict.setdefault: keep the entry when the key is present,
else insert the default at the end. -/
def setdefaultJ (k : String) (v : Json) (l : List (String × Json)) : List (String × Json) :=
  if (lookupJ k l).isSome then l else l ++ [(k, v)]

/-- In-place overwrite of the value stored under an existing key. -/
def updateJ (k : String) (v : Json) : List (String × Json) → List (String × Json)
  | [] => []
  | (k', w) :: rest => if k' = k then (k', v) :: rest else (k', w) :: updateJ k v rest

def Json.isObj : Json → Bool
  | .obj _ => true
  | _ => false

def navLinkJson (l : NavLink) : Json :=
  .obj [("label", .str l.label), ("url", .str l.url), ("target", .str l.target)]

def defaultNavLinksJson : Json := .arr (DEFAULT_NAV_LINKS.map navLinkJson)

/-- The empty default document written by ensure_data_file. -/
def defaultDocumentJson : Json :=
  .obj [("posts", .arr []),
        ("pages", .obj []),
        ("settings", .obj [("nav_links", defaultNavLinksJson),
                           ("main_title", .str DEFAULT_MAIN_TITLE)])]

/-- State of the backing file: absent, or holding contents that decode
to a JSON value, or holding malformed contents. -/
abbrev FileState : Type := Option (Except Unit Json)

/-- ensure_data_file: write the default document when the file is
absent, otherwise do nothing. -/
def ensure_data_file (fs : FileState) : FileState :=
  match fs with
  | none => some (.ok defaultDocumentJson)
  | some c => some c

/-- save_data: overwrite the file with the serialized document. -/
def save_data (j : Json) (_fs : FileState) : FileState := some (.ok j)

inductive LoadError where
  | decode
  | attr
deriving Repr, DecidableEq

/-- The two setdefault calls on the settings dict. -/
def fillSettings (s : List (String × Json)) : List (String × Json) :=
  setdefaultJ "main_title" (.str DEFAULT_MAIN_TITLE)
    (setdefaultJ "nav_links" defaultNavLinksJson s)

/-- load_data: ensure the file exists, decode it, wrap a non-object
top level as the posts entry, and fill missing keys with defaults.
Malformed contents propagate as a decode error; a settings entry that
is not an object makes the setdefault attribute access raise, modelled
as the attr error. -/
def load_data (fs : FileState) : FileState × Except LoadError Json :=
  let fs' := ensure_data_file fs
  match fs' with
  | none => (fs', .error .decode)
  | some (.error _) => (fs', .error .decode)
  | some (.ok raw) =>
    let raw₁ :=
      match raw with
      | .obj kvs => kvs
      | v => [("posts", v)]
    let raw₂ := setdefaultJ "pages" (.obj []) (setdefaultJ "posts" (.arr []) raw₁)
    match lookupJ "settings" raw₂ with
    | none => (fs', .ok (.obj (raw₂ ++ [("settings", .obj (fillSettings []))])))
    | some (.obj s) => (fs', .ok (.obj (updateJ "settings" (.obj (fillSettings s)) raw₂)))
    | some _ => (fs', .error .attr)

/-! ## Invariant of the post collection (spec section 3) -/

/-- Exactly one post per slug, and ids assigned once and never
reused. -/
def PostsInvariant (posts : List Post) : Prop :=
  (posts.map Post.slug).Nodup ∧ (posts.map Post.id).Nodup

/-! ## Helper lemmas about the date encoding -/

theorem dtMin_le_encode (t : DT) (h1 : 1 ≤ t.y) (h2 : 1 ≤ t.m) (h3 : 1 ≤ t.d) :
    dtMin ≤ dtEncode t := by
  simp only [dtMin, dtEncode]
  omega

theorem mkValidDT_min {y m d hh mm ss us : Nat} {t : DT}
    (h : mkValidDT y m d hh mm ss us = some t) : dtMin ≤ dtEncode t := by
  unfold mkValidDT at h
  split at h
  · rename_i hc
    cases h
    simp only [Bool.and_eq_true, decide_eq_true_eq] at hc
    exact dtMin_le_encode _ hc.1.1.1.1.1.1.1.1 hc.1.1.1.1.1.1.1.2 hc.1.1.1.1.1.2
  · cases h

theorem parseStrptime_min {sep : Char} {s : String} {t : DT}
    (h : parseStrptime sep s = some t) : dtMin ≤ dtEncode t := by
  rw [parseStrptime] at h
  cases hc : parseStrptimeCore sep s with
  | none => rw [hc] at h; cases h
  | some v =>
    obtain ⟨y, m, d, hh, mm, ss, r⟩ := v
    rw [hc] at h
    simp only [Option.bind_eq_bind, Option.some_bind] at h
    split at h
    · exact mkValidDT_min h
    · cases h

theorem parseIsoTimeTail_min {y m d hh : Nat} {r : List Char} {t : DT}
    (h : parseIsoTimeTail y m d hh r = some t) : dtMin ≤ dtEncode t := by
  unfold parseIsoTimeTail at h
  split at h
  · exact mkValidDT_min h
  · rename_i r'
    cases hp : parse2 r' with
    | none => rw [hp] at h; cases h
    | some v =>
      obtain ⟨mm, r2⟩ := v
      rw [hp] at h
      simp only [Option.bind_eq_bind, Option.some_bind] at h
      split at h
      · exact mkValidDT_min h
      · rename_i r3
        cases hq : parse2 r3 with
        | none => rw [hq] at h; cases h
        | some w =>
          obtain ⟨ss, r4⟩ := w
          rw [hq] at h
          simp only [Option.bind_eq_bind, Option.some_bind] at h
          split at h
          · exact mkValidDT_min h
          · split at h
            · rename_i r5 hdot
              cases hf : parseFrac r5 with
              | none => rw [hf] at h; simp at h
              | some u =>
                obtain ⟨us, r6⟩ := u
                rw [hf] at h
                simp only [Option.some_bind] at h
                split at h
                · exact mkValidDT_min h
                · cases h
            · cases h
      · cases h
  · cases h

theorem parseIso_min {s : String} {t : DT}
    (h : parseIso s = some t) : dtMin ≤ dtEncode t := by
  rw [parseIso] at h
  simp only [Option.bind_eq_bind, Option.bind_eq_some] at h
  obtain ⟨⟨y, r1⟩, -, h⟩ := h
  obtain ⟨r2, -, h⟩ := h
  obtain ⟨⟨m, r3⟩, -, h⟩ := h
  obtain ⟨r4, -, h⟩ := h
  obtain ⟨⟨d, r5⟩, -, h⟩ := h
  split at h
  · exact mkValidDT_min h
  · simp only [Option.bind_eq_some] at h
    obtain ⟨⟨hh, r6⟩, -, h⟩ := h
    exact parseIsoTimeTail_min h

theorem parse_date_min : ∀ ds : Option String, dtMin ≤ parse_date ds := by
  intro ds
  cases ds with
  | none => exact Nat.le_refl _
  | some s =>
    rw [parse_date]
    split
    · exact Nat.le_refl _
    · split
      · exact parseStrptime_min (by assumption)
      · split
        · exact parseStrptime_min (by assumption)
        · split
          · exact parseIso_min (by assumption)
          · exact Nat.le_refl _

/-! ## Claim C6: idempotence of ensure_store_exists -/

/-- Claim C6: the first call of ensure_data_file on an absent backing
file creates it holding the empty default Document, and any number of
calls on an existing backing file leave its contents unchanged. -/
theorem C6_ensure_store_idempotent :
    ensure_data_file none = some (.ok defaultDocumentJson) ∧
    ∀ (c : Except Unit Json) (n : Nat), ensure_data_file^[n] (some c) = some c := by
  refine ⟨rfl, fun c n => ?_⟩
  induction n with
  | zero => rfl
  | succ n ih => rw [Function.iterate_succ_apply, show ensure_data_file (some c) = some c from rfl, ih]

/-! ## Claim C9: non-object top level is wrapped, not an error -/

/-- Claim C9: when the backing file holds well-formed JSON whose top
level is not an object, load_data does not fail: it wraps the value as
the posts entry, fills pages and settings with defaults, and leaves
the file unchanged. -/
theorem C9_nonobject_top_level (v : Json) (h : v.isObj = false) :
    load_data (some (.ok v)) =
      (some (.ok v),
       .ok (.obj [("posts", v), ("pages", .obj []),
                  ("settings", .obj [("nav_links", defaultNavLinksJson),
                                     ("main_title", .str DEFAULT_MAIN_TITLE)])])) := by
  cases v <;> first | rfl | simp [Json.isObj] at h

/-- Witness for C9 at the concrete top-level value of a bare empty
list. -/
theorem C9_witness :
    load_data (some (.ok (.arr []))) =
      (some (.ok (.arr [])),
       .ok (.obj [("posts", .arr []), ("pages", .obj []),
                  ("settings", .obj [("nav_links", defaultNavLinksJson),
                                     ("main_title", .str DEFAULT_MAIN_TITLE)])])) :=
  C9_nonobject_top_level (.arr []) rfl

/-! ## Claim C10: the third validation failure, an ungenerable slug -/

/-- Claim C10: when the title passes validation but slug normalization
of the resolved slug yields the empty string, handle_post_save aborts
with its own distinct error and writes nothing to storage. -/
theorem C10_empty_slug_rejected (renderMd : String → String) (now : String)
    (form : Form) (existing : Option Post) (doc : Document)
    (ht : resolved_title form ≠ "") (hs : resolved_slug form existing = "") :
    handle_post_save renderMd now form existing doc = (doc, some .slugEmpty) ∧
    SaveError.slugEmpty ≠ SaveError.titleRequired ∧
    SaveError.slugEmpty ≠ SaveError.slugExists := by
  refine ⟨?_, by simp, by simp⟩
  simp [handle_post_save, ht, hs]

/-- Witness for C10: a title of three exclamation marks is nonempty
but produces an empty slug. -/
theorem C10_witness :
    handle_post_save id "2024-01-01T00:00:00" { title := some "!!!" } none
        ⟨[], [], ⟨DEFAULT_NAV_LINKS, DEFAULT_MAIN_TITLE⟩⟩ =
      (⟨[], [], ⟨DEFAULT_NAV_LINKS, DEFAULT_MAIN_TITLE⟩⟩, some .slugEmpty) :=
  (C10_empty_slug_rejected id "2024-01-01T00:00:00" { title := some "!!!" } none
    ⟨[], [], ⟨DEFAULT_NAV_LINKS, DEFAULT_MAIN_TITLE⟩⟩ (by decide) (by decide)).1

/-! ## Claim C3: validation failures are distinct and atomic -/

/-- Claim C3: handle_post_save signals the missing-title and
slug-collision failures as distinct errors, and on every validation
failure the stored document is left unchanged. -/
theorem C3_validation_atomic (renderMd : String → String) (now : String)
    (form : Form) (existing : Option Post) (doc : Document) :
    (resolved_title form = "" →
      handle_post_save renderMd now form existing doc = (doc, some .titleRequired)) ∧
    (resolved_title form ≠ "" → resolved_slug form existing ≠ "" →
      (load_posts doc).any (collides (resolved_slug form existing) existing) = true →
      handle_post_save renderMd now form existing doc = (doc, some .slugExists)) ∧
    (∀ e, (handle_post_save renderMd now form existing doc).2 = some e →
      (handle_post_save renderMd now form existing doc).1 = doc) ∧
    SaveError.titleRequired ≠ SaveError.slugExists := by
  refine ⟨?_, ?_, ?_, by simp⟩
  · intro h; simp [handle_post_save, h]
  · intro h1 h2 h3; simp [handle_post_save, h1, h2, h3]
  · intro e
    simp only [handle_post_save]
    split
    · intro _; rfl
    · split
      · intro _; rfl
      · split
        · intro _; rfl
        · intro hcontra; cases hcontra

/-- Witness for C3: an empty form fails title validation on a sample
document and leaves it unchanged. -/
theorem C3_witness :
    handle_post_save id "2024-01-01T00:00:00" {} none
        ⟨[], [], ⟨DEFAULT_NAV_LINKS, DEFAULT_MAIN_TITLE⟩⟩ =
      (⟨[], [], ⟨DEFAULT_NAV_LINKS, DEFAULT_MAIN_TITLE⟩⟩, some .titleRequired) :=
  (C3_validation_atomic id "2024-01-01T00:00:00" {} none
    ⟨[], [], ⟨DEFAULT_NAV_LINKS, DEFAULT_MAIN_TITLE⟩⟩).1 (by decide)

/-! ## Claim C5: excerpt derivation (corrected)

The claim states that the excerpt of a long body is the first 220
characters of the tag-stripped plain text followed by the marker, but
build_excerpt right-strips the truncated prefix before appending the
marker, so trailing whitespace inside the 220-character prefix is
removed. -/

/-- A body of 320 plain characters whose 220th character is a
space. -/
def c5Body : String := ⟨List.replicate 219 'a' ++ ' ' :: List.replicate 100 'b'⟩

set_option maxRecDepth 8000 in
/-- Counterexample to claim C5 as stated: for this body the excerpt is
not the first 220 characters of the tag-stripped (and
whitespace-stripped) plain text followed by the marker, because the
trailing space of the prefix is removed. -/
theorem C5_counterexample :
    build_excerpt c5Body ≠
      String.mk ((pyStrip ⟨stripTagsL c5Body.data⟩).data.take 220) ++ excerptMarker := by
  decide

/-- Claim C5 as amended: with no explicit excerpt, the excerpt is the
whitespace-stripped tag-stripped plain text when that text has at most
220 characters (no marker); otherwise it is the first 220 characters
of that text with trailing whitespace removed, suffixed with the
ellipsis marker. -/
theorem C5_excerpt_amended (html : String) :
    ((pyStrip ⟨stripTagsL html.data⟩).length ≤ 220 →
      build_excerpt html = pyStrip ⟨stripTagsL html.data⟩) ∧
    (220 < (pyStrip ⟨stripTagsL html.data⟩).length →
      build_excerpt html =
        pyRstrip ⟨(pyStrip ⟨stripTagsL html.data⟩).data.take 220⟩ ++ excerptMarker) := by
  constructor
  · intro h
    simp only [build_excerpt, if_pos h]
  · intro h
    simp only [build_excerpt, if_neg (Nat.not_le.mpr h)]

set_option maxRecDepth 8000 in
/-- Witness for C5: both branches of the amended claim at concrete
bodies of 5 and 320 plain characters. -/
theorem C5_witness :
    build_excerpt "<p>short</p>" = pyStrip ⟨stripTagsL "<p>short</p>".data⟩ ∧
    build_excerpt c5Body =
      pyRstrip ⟨(pyStrip ⟨stripTagsL c5Body.data⟩).data.take 220⟩ ++ excerptMarker :=
  ⟨(C5_excerpt_amended "<p>short</p>").1 (by decide),
   (C5_excerpt_amended c5Body).2 (by decide)⟩

/-! ## Claim C4: order produced by load_posts -/

theorem postLe_trans (a b c : Post) (hab : postLe a b) (hbc : postLe b c) : postLe a c := by
  simp only [postLe, decide_eq_true_eq] at *
  exact Nat.le_trans hbc hab

theorem postLe_total (a b : Post) : postLe a b || postLe b a := by
  simp only [postLe, Bool.or_eq_true, decide_eq_true_eq]
  exact (Nat.le_total (parse_date b.date) (parse_date a.date))

/-- Claim C4: load_posts returns a permutation of the stored posts,
ordered by parsed date descending; missing dates parse to the minimum
timestamp and every parsed date is at least the minimum, so such posts
sort last; posts with equal parsed dates keep their original relative
order. -/
theorem C4_list_posts_sorted (doc : Document) :
    List.Perm (load_posts doc) doc.posts ∧
    (load_posts doc).Pairwise (fun a b => parse_date b.date ≤ parse_date a.date) ∧
    (∀ a b : Post, List.Sublist [a, b] doc.posts →
      parse_date a.date = parse_date b.date →
      List.Sublist [a, b] (load_posts doc)) ∧
    parse_date none = dtMin ∧
    (∀ ds : Option String, dtMin ≤ parse_date ds) := by
  refine ⟨List.mergeSort_perm _ _, ?_, ?_, rfl, parse_date_min⟩
  · have hs : (doc.posts.mergeSort postLe).Pairwise (fun a b => postLe a b) :=
      List.sorted_mergeSort (fun a b c => postLe_trans a b c)
        (fun a b => postLe_total a b) doc.posts
    exact hs.imp (fun h => by simpa [postLe] using h)
  · intro a b hsub heq
    exact List.pair_sublist_mergeSort (fun a b c => postLe_trans a b c)
      (fun a b => postLe_total a b) (by simp [postLe, heq]) hsub

def c4PostA : Post :=
  { id := 1, slug := "a", title := "A", date := some "2024-01-01", modified := "",
    status := "publish", tags := [], categories := [], content_markdown := "",
    content_html := "", excerpt := "", author := "" }

def c4PostB : Post :=
  { id := 2, slug := "b", title := "B", date := some "2024-01-01", modified := "",
    status := "publish", tags := [], categories := [], content_markdown := "",
    content_html := "", excerpt := "", author := "" }

def c4Doc : Document := ⟨[c4PostA, c4PostB], [], ⟨DEFAULT_NAV_LINKS, DEFAULT_MAIN_TITLE⟩⟩

/-- Witness for C4: two posts with equal dates keep their original
relative order in load_posts. -/
theorem C4_witness : List.Sublist [c4PostA, c4PostB] (load_posts c4Doc) :=
  (C4_list_posts_sorted c4Doc).2.2.1 c4PostA c4PostB (List.Sublist.refl _) rfl

/-! ## Lemmas about JSON object operations -/

theorem lookupJ_append (k : String) (l₁ l₂ : List (String × Json)) :
    lookupJ k (l₁ ++ l₂) = ((lookupJ k l₁).orElse fun _ => lookupJ k l₂) := by
  induction l₁ with
  | nil => simp [lookupJ]
  | cons kv rest ih =>
    obtain ⟨k₁, v₁⟩ := kv
    simp only [List.cons_append, lookupJ]
    split
    · simp
    · exact ih

theorem lookupJ_setdefault_self (k : String) (v : Json) (l : List (String × Json)) :
    lookupJ k (setdefaultJ k v l) = some ((lookupJ k l).getD v) := by
  unfold setdefaultJ
  cases hl : lookupJ k l with
  | some x => simp [hl]
  | none => simp [hl, lookupJ_append, lookupJ]

theorem lookupJ_setdefault_other {k' k : String} (h : k' ≠ k) (v : Json)
    (l : List (String × Json)) : lookupJ k' (setdefaultJ k v l) = lookupJ k' l := by
  unfold setdefaultJ
  split
  · rfl
  · rw [lookupJ_append]
    cases hl : lookupJ k' l with
    | some x => simp
    | none => simp [lookupJ, Ne.symm h]

theorem lookupJ_update_self (k : String) (v : Json) (l : List (String × Json)) :
    lookupJ k (updateJ k v l) = if (lookupJ k l).isSome then some v else none := by
  induction l with
  | nil => simp [updateJ, lookupJ]
  | cons kv rest ih =>
    obtain ⟨k₁, w⟩ := kv
    simp only [updateJ, lookupJ]
    split
    · rename_i hk; simp [lookupJ, hk]
    · rename_i hk; simp only [lookupJ, if_neg hk]; exact ih

theorem lookupJ_update_other {k' k : String} (h : k' ≠ k) (v : Json)
    (l : List (String × Json)) : lookupJ k' (updateJ k v l) = lookupJ k' l := by
  induction l with
  | nil => rfl
  | cons kv rest ih =>
    obtain ⟨k₁, w⟩ := kv
    simp only [updateJ, lookupJ]
    split
    · rename_i hk
      subst hk
      simp [lookupJ, Ne.symm h]
    · simp only [lookupJ]
      split
      · rfl
      · exact ih

/-! ## Claim C7: load fills defaults without touching disk -/

/-- Claim C7: for every existing backing file holding a decodable JSON
object (whose settings entry, when present, is itself an object as the
setdefault attribute access requires), load_data returns a Document
with posts, pages, settings and the settings subkeys filled with
defaults, preserving every present entry, and the file state is
unchanged; malformed contents propagate as a decoding error. -/
theorem C7_load_fills_defaults (kvs : List (String × Json))
    (hs : ∀ j, lookupJ "settings" kvs = some j → j.isObj = true) :
    (load_data (some (.ok (.obj kvs)))).1 = some (.ok (.obj kvs)) ∧
    (∃ out, (load_data (some (.ok (.obj kvs)))).2 = .ok (.obj out) ∧
      lookupJ "posts" out = some ((lookupJ "posts" kvs).getD (.arr [])) ∧
      lookupJ "pages" out = some ((lookupJ "pages" kvs).getD (.obj [])) ∧
      ∃ sOut, lookupJ "settings" out = some (.obj sOut) ∧
        (∀ s₀, lookupJ "settings" kvs = some (.obj s₀) →
          lookupJ "nav_links" sOut = some ((lookupJ "nav_links" s₀).getD defaultNavLinksJson) ∧
          lookupJ "main_title" sOut =
            some ((lookupJ "main_title" s₀).getD (.str DEFAULT_MAIN_TITLE))) ∧
        (lookupJ "settings" kvs = none →
          lookupJ "nav_links" sOut = some defaultNavLinksJson ∧
          lookupJ "main_title" sOut = some (.str DEFAULT_MAIN_TITLE))) ∧
    load_data (some (.error ())) = (some (.error ()), .error .decode) := by
  have hraw : lookupJ "settings"
      (setdefaultJ "pages" (Json.obj []) (setdefaultJ "posts" (Json.arr []) kvs)) =
      lookupJ "settings" kvs := by
    rw [lookupJ_setdefault_other (by decide), lookupJ_setdefault_other (by decide)]
  cases hset : lookupJ "settings" kvs with
  | none =>
    have h2 : load_data (some (.ok (.obj kvs))) =
        (some (.ok (.obj kvs)),
         .ok (.obj ((setdefaultJ "pages" (Json.obj [])
            (setdefaultJ "posts" (Json.arr []) kvs)) ++
            [("settings", .obj (fillSettings []))]))) := by
      simp only [load_data, ensure_data_file]
      rw [hraw.trans hset]
    refine ⟨by rw [h2], ⟨_, by rw [h2], ?_, ?_, ?_⟩, rfl⟩
    · rw [lookupJ_append, lookupJ_setdefault_other (by decide), lookupJ_setdefault_self]
      simp
    · rw [lookupJ_append, lookupJ_setdefault_self, lookupJ_setdefault_other (by decide)]
      simp
    · refine ⟨fillSettings [], ?_, ?_, fun _ => ⟨rfl, rfl⟩⟩
      · rw [lookupJ_append, hraw.trans hset]
        rfl
      · intro s₀ hcontra
        cases hcontra
  | some j =>
    have hobj := hs j hset
    cases j with
    | obj s₀ =>
      have h2 : load_data (some (.ok (.obj kvs))) =
          (some (.ok (.obj kvs)),
           .ok (.obj (updateJ "settings" (.obj (fillSettings s₀))
             (setdefaultJ "pages" (Json.obj [])
               (setdefaultJ "posts" (Json.arr []) kvs))))) := by
        simp only [load_data, ensure_data_file]
        rw [hraw.trans hset]
      refine ⟨by rw [h2], ⟨_, by rw [h2], ?_, ?_, ?_⟩, rfl⟩
      · rw [lookupJ_update_other (by decide), lookupJ_setdefault_other (by decide),
          lookupJ_setdefault_self]
      · rw [lookupJ_update_other (by decide), lookupJ_setdefault_self,
          lookupJ_setdefault_other (by decide)]
      · refine ⟨fillSettings s₀, ?_, ?_, ?_⟩
        · rw [lookupJ_update_self, hraw.trans hset]
          rfl
        · intro s₀' h'
          simp only [Option.some.injEq, Json.obj.injEq] at h'
          subst h'
          constructor
          · unfold fillSettings
            rw [lookupJ_setdefault_other (by decide), lookupJ_setdefault_self]
          · unfold fillSettings
            rw [lookupJ_setdefault_self, lookupJ_setdefault_other (by decide)]
        · intro h'
          cases h'
    | _ => simp [Json.isObj] at hobj

/-- Witness for C7 at the concrete backing file holding an empty JSON
object. -/
theorem C7_witness :
    (load_data (some (.ok (.obj [])))).1 = some (.ok (.obj [])) :=
  (C7_load_fills_defaults [] (fun _ h => nomatch h)).1

/-! ## Claim C8: importer category classification -/

/-- Specification-side description of the tag routing: a category
element contributes its trimmed label to tags exactly when its domain
is post_tag and the label is nonempty. -/
def spec_tag_of (c : WpCategory) : Option String :=
  if c.domain.getD "" = "post_tag" ∧ pyStrip (c.text.getD "") ≠ "" then
    some (pyStrip (c.text.getD ""))
  else none

/-- Specification-side description of the category routing. -/
def spec_category_of (c : WpCategory) : Option String :=
  if c.domain.getD "" = "category" ∧ pyStrip (c.text.getD "") ≠ "" then
    some (pyStrip (c.text.getD ""))
  else none

theorem wpLabels_go (cats : List WpCategory) (acc : List String × List String) :
    cats.foldl wpLabelStep acc =
      (acc.1 ++ cats.filterMap spec_tag_of, acc.2 ++ cats.filterMap spec_category_of) := by
  induction cats generalizing acc with
  | nil => simp
  | cons c rest ih =>
    simp only [List.foldl_cons, List.filterMap_cons]
    rw [ih]
    by_cases hl : pyStrip (c.text.getD "") = ""
    · simp [wpLabelStep, spec_tag_of, spec_category_of, hl]
    · by_cases hd : c.domain.getD "" = "post_tag"
      · simp [wpLabelStep, spec_tag_of, spec_category_of, hl, hd]
      · by_cases hc : c.domain.getD "" = "category"
        · simp [wpLabelStep, spec_tag_of, spec_category_of, hl, hd, hc]
        · simp [wpLabelStep, spec_tag_of, spec_category_of, hl, hd, hc]

/-- Claim C8: for every item of post type "post", each category
element is routed into tags when its taxonomy domain is post_tag and
into categories when its domain is category, in document order;
elements with an empty trimmed label or any other domain are
skipped. -/
theorem C8_category_routing :
    (∀ cats : List WpCategory,
      (wpLabels cats).1 = cats.filterMap spec_tag_of ∧
      (wpLabels cats).2 = cats.filterMap spec_category_of) ∧
    (∀ (now : String) (item : WpItem), item.post_type.getD "" = "post" →
      ∀ p, wpItemPost now item = .ok p →
        p.tags = item.categories.filterMap spec_tag_of ∧
        p.categories = item.categories.filterMap spec_category_of ∧
        parse_posts now [item] = .ok [p]) := by
  have hlab : ∀ cats, wpLabels cats =
      (cats.filterMap spec_tag_of, cats.filterMap spec_category_of) := by
    intro cats
    unfold wpLabels
    rw [wpLabels_go]
    simp
  refine ⟨fun cats => ⟨by rw [hlab], by rw [hlab]⟩, ?_⟩
  intro now item hpt p hp
  have ht : p.tags = (wpLabels item.categories).1 ∧
      p.categories = (wpLabels item.categories).2 := by
    unfold wpItemPost at hp
    split at hp
    · cases hp
    · cases hp
      exact ⟨rfl, rfl⟩
  have hpp : parseItemsGo now [item] = .ok [p] := by
    simp [parseItemsGo, hpt, hp, Except.map]
  refine ⟨?_, ?_, ?_⟩
  · rw [ht.1, (hlab item.categories)]
  · rw [ht.2, (hlab item.categories)]
  · simp [parse_posts, hpp, Except.map]

def c8Item : WpItem :=
  { post_type := some "post", title := some "T", post_name := some "t",
    categories := [⟨some "category", some "Tech"⟩] }

def c8Post : Post :=
  { id := 0, slug := "t", title := "T", date := some "2024-01-01T00:00:00",
    modified := "2024-01-01T00:00:00", status := "publish", tags := [],
    categories := ["Tech"], content_markdown := "", content_html := "",
    excerpt := "", author := "" }

/-- Witness for C8: a post-type item with one category-domain element
labelled Tech imports with empty tags and categories Tech, and an
empty-label post_tag element contributes nothing. -/
theorem C8_witness :
    (c8Post.tags = c8Item.categories.filterMap spec_tag_of ∧
     c8Post.categories = c8Item.categories.filterMap spec_category_of ∧
     parse_posts "2024-01-01T00:00:00" [c8Item] = .ok [c8Post]) ∧
    (wpLabels [⟨some "post_tag", some "  "⟩]).1 = [] ∧
    (wpLabels [⟨some "post_tag", some "  "⟩]).2 = [] :=
  ⟨C8_category_routing.2 "2024-01-01T00:00:00" c8Item rfl c8Post rfl,
   by decide, by decide⟩

/-! ## Lemmas about the post-collection operations -/

theorem replaceFirst_mem_weak {l : List Post} {i : Int} {pay q : Post}
    (h : q ∈ replaceFirstById l i pay) : q = pay ∨ q ∈ l := by
  induction l with
  | nil => simp [replaceFirstById] at h
  | cons p ps ih =>
    simp only [replaceFirstById] at h
    split at h
    · rcases List.mem_cons.mp h with h1 | h2
      · exact Or.inl h1
      · exact Or.inr (List.mem_cons_of_mem _ h2)
    · rcases List.mem_cons.mp h with h1 | h2
      · exact Or.inr (by simp [h1])
      · rcases ih h2 with h3 | h4
        · exact Or.inl h3
        · exact Or.inr (List.mem_cons_of_mem _ h4)

theorem replaceFirst_payload_mem {l : List Post} {i : Int} (pay : Post)
    (hex : ∃ x ∈ l, x.id = i) : pay ∈ replaceFirstById l i pay := by
  induction l with
  | nil => obtain ⟨x, hx, -⟩ := hex; cases hx
  | cons p ps ih =>
    simp only [replaceFirstById]
    split
    · exact List.mem_cons_self _ _
    · rename_i hpid
      obtain ⟨x, hx, hxi⟩ := hex
      rcases List.mem_cons.mp hx with h1 | h2
      · subst h1; exact absurd hxi hpid
      · exact List.mem_cons_of_mem _ (ih ⟨x, h2, hxi⟩)

theorem replaceFirst_mem_char {l : List Post} {i : Int} {pay : Post}
    (hids : (l.map Post.id).Nodup) :
    ∀ q ∈ replaceFirstById l i pay, q = pay ∨ (q ∈ l ∧ q.id ≠ i) := by
  induction l with
  | nil => intro q hq; simp [replaceFirstById] at hq
  | cons p ps ih =>
    intro q hq
    simp only [List.map_cons, List.nodup_cons] at hids
    simp only [replaceFirstById] at hq
    split at hq
    · rename_i hpid
      rcases List.mem_cons.mp hq with h1 | hmem
      · exact Or.inl h1
      · refine Or.inr ⟨List.mem_cons_of_mem _ hmem, fun hqi => ?_⟩
        exact hids.1 (by rw [hpid, ← hqi]; exact List.mem_map_of_mem Post.id hmem)
    · rename_i hpid
      rcases List.mem_cons.mp hq with h1 | hmem
      · rw [h1]; exact Or.inr ⟨List.mem_cons_self _ _, hpid⟩
      · rcases ih hids.2 q hmem with ha | ⟨hb, hc⟩
        · exact Or.inl ha
        · exact Or.inr ⟨List.mem_cons_of_mem _ hb, hc⟩

theorem replaceFirst_map_id {l : List Post} {i : Int} {pay : Post} (h : pay.id = i) :
    (replaceFirstById l i pay).map Post.id = l.map Post.id := by
  induction l with
  | nil => rfl
  | cons p ps ih =>
    simp only [replaceFirstById]
    split
    · rename_i hpid
      simp [h, hpid]
    · simp [ih]

theorem replaceFirst_slug_nodup {l : List Post} {i : Int} {pay : Post}
    (h1 : (l.map Post.slug).Nodup) (h2 : (l.map Post.id).Nodup)
    (h3 : ∀ p ∈ l, p.slug = pay.slug → p.id = i) :
    ((replaceFirstById l i pay).map Post.slug).Nodup := by
  induction l with
  | nil => simp [replaceFirstById]
  | cons p ps ih =>
    simp only [List.map_cons, List.nodup_cons] at h1 h2
    simp only [replaceFirstById]
    split
    · rename_i hpid
      simp only [List.map_cons, List.nodup_cons]
      refine ⟨fun hmem => ?_, h1.2⟩
      obtain ⟨q, hq, hqs⟩ := List.mem_map.mp hmem
      have hqi := h3 q (List.mem_cons_of_mem _ hq) hqs
      exact h2.1 (by rw [hpid, ← hqi]; exact List.mem_map_of_mem Post.id hq)
    · rename_i hpid
      simp only [List.map_cons, List.nodup_cons]
      constructor
      · intro hmem
        obtain ⟨q, hq, hqs⟩ := List.mem_map.mp hmem
        rcases replaceFirst_mem_weak hq with h4 | h5
        · rw [h4] at hqs
          exact hpid (h3 p (List.mem_cons_self _ _) hqs.symm)
        · exact h1.1 (by rw [← hqs]; exact List.mem_map_of_mem Post.slug h5)
      · exact ih h1.2 h2.2 (fun q hq hqs => h3 q (List.mem_cons_of_mem _ hq) hqs)

theorem foldl_max_le (l : List Post) (a : Int) :
    a ≤ l.foldl (fun m q => max m q.id) a ∧
    ∀ q ∈ l, q.id ≤ l.foldl (fun m q => max m q.id) a := by
  induction l generalizing a with
  | nil => exact ⟨le_refl _, by simp⟩
  | cons p ps ih =>
    simp only [List.foldl_cons]
    constructor
    · exact le_trans (le_max_left a p.id) (ih (max a p.id)).1
    · intro q hq
      rcases List.mem_cons.mp hq with h1 | h2
      · rw [h1]; exact le_trans (le_max_right a p.id) (ih (max a p.id)).1
      · exact (ih (max a p.id)).2 q h2

theorem lt_next_id {posts : List Post} : ∀ p ∈ posts, p.id < next_id posts := by
  intro p hp
  cases posts with
  | nil => cases hp
  | cons q qs =>
    simp only [next_id]
    rcases List.mem_cons.mp hp with h1 | h2
    · rw [h1]
      have := (foldl_max_le qs q.id).1
      omega
    · have := (foldl_max_le qs q.id).2 p h2
      omega

theorem find_unique_slug {l : List Post} {s : String} {p : Post}
    (hp : p ∈ l) (hps : p.slug = s) (huniq : ∀ q ∈ l, q.slug = s → q = p) :
    l.find? (fun q => q.slug == s) = some p := by
  cases hfind : l.find? (fun q => q.slug == s) with
  | some q =>
    have hq := List.find?_some hfind
    have hmem : q ∈ l := List.mem_of_find?_eq_some hfind
    rw [huniq q hmem (by simpa using hq)]
  | none =>
    have := List.find?_eq_none.mp hfind p hp
    simp [hps] at this

/-- The success path of handle_post_save: when all three validations
pass, the sorted posts with the payload inserted or substituted are
stored. -/
theorem handle_post_save_success (renderMd : String → String) (now : String)
    (form : Form) (existing : Option Post) (doc : Document)
    (ht : resolved_title form ≠ "") (hs : resolved_slug form existing ≠ "")
    (hc : (load_posts doc).any (collides (resolved_slug form existing) existing) = false) :
    handle_post_save renderMd now form existing doc =
      ({ doc with posts :=
          match existing with
          | some e => replaceFirstById (load_posts doc) e.id
              (resolved_payload renderMd now form existing (load_posts doc))
          | none => load_posts doc ++
              [resolved_payload renderMd now form existing (load_posts doc)] },
       none) := by
  simp only [handle_post_save, ht, hs, hc]
  simp [ht, hs, hc]
  cases existing <;> rfl

/-! ## Claim C2: save followed by find returns the resolved post -/

theorem sorted_ids_nodup {doc : Document} (hinv : PostsInvariant doc.posts) :
    ((load_posts doc).map Post.id).Nodup :=
  (((List.mergeSort_perm doc.posts postLe).map Post.id).nodup_iff).mpr hinv.2

theorem mem_load_posts {doc : Document} {p : Post} :
    p ∈ load_posts doc ↔ p ∈ doc.posts := by
  simp [load_posts]

/-- Claim C2: for every valid post input (nonempty resolved title, a
generable slug, a resolved slug owned by no post other than the one
being edited) on a document satisfying the data-model invariant,
handle_post_save succeeds and get_post_by_slug on the resolved slug
returns exactly the payload whose fields are the resolved values of
the save steps. -/
theorem C2_round_trip (renderMd : String → String) (now : String) (form : Form)
    (existing : Option Post) (doc : Document)
    (hinv : PostsInvariant doc.posts)
    (hex : ∀ e, existing = some e → e ∈ doc.posts)
    (ht : resolved_title form ≠ "")
    (hs : resolved_slug form existing ≠ "")
    (hcol : ∀ p ∈ doc.posts, p.slug = resolved_slug form existing →
      ∃ e, existing = some e ∧ p.id = e.id) :
    (handle_post_save renderMd now form existing doc).2 = none ∧
    get_post_by_slug (resolved_slug form existing)
        (handle_post_save renderMd now form existing doc).1 =
      some (resolved_payload renderMd now form existing (load_posts doc)) := by
  cases existing with
  | none =>
    have hany : (load_posts doc).any (collides (resolved_slug form none) none) = false := by
      rw [List.any_eq_false]
      intro p hp
      by_cases hps : p.slug = resolved_slug form none
      · obtain ⟨e, he, -⟩ := hcol p (mem_load_posts.mp hp) hps
        cases he
      · simp [collides, hps]
    rw [handle_post_save_success renderMd now form none doc ht hs hany]
    refine ⟨rfl, ?_⟩
    simp only [get_post_by_slug]
    apply find_unique_slug
    · rw [mem_load_posts]
      simp
    · rfl
    · intro q hq hqs
      rw [mem_load_posts] at hq
      rcases List.mem_append.mp hq with hq1 | hq2
      · exfalso
        obtain ⟨e, he, -⟩ := hcol q (mem_load_posts.mp hq1) hqs
        cases he
      · simpa using hq2
  | some e =>
    have he : e ∈ doc.posts := hex e rfl
    have hids : ((load_posts doc).map Post.id).Nodup := sorted_ids_nodup hinv
    have hany : (load_posts doc).any (collides (resolved_slug form (some e)) (some e)) = false := by
      rw [List.any_eq_false]
      intro p hp
      by_cases hps : p.slug = resolved_slug form (some e)
      · obtain ⟨e', he', hid⟩ := hcol p (mem_load_posts.mp hp) hps
        injection he' with he''
        rw [← he''] at hid
        simp [collides, hps, hid]
      · simp [collides, hps]
    rw [handle_post_save_success renderMd now form (some e) doc ht hs hany]
    refine ⟨rfl, ?_⟩
    simp only [get_post_by_slug]
    apply find_unique_slug
    · rw [mem_load_posts]
      exact replaceFirst_payload_mem _ ⟨e, mem_load_posts.mpr he, rfl⟩
    · rfl
    · intro q hq hqs
      rw [mem_load_posts] at hq
      rcases replaceFirst_mem_char hids q hq with h1 | ⟨h2, h3⟩
      · exact h1
      · exfalso
        obtain ⟨e', he', hid⟩ := hcol q (mem_load_posts.mp h2) hqs
        injection he' with he''
        rw [← he''] at hid
        exact h3 hid

def c2Form : Form := { title := some "Hello World", content_html := some "Body" }

def c2Doc : Document := ⟨[], [], ⟨DEFAULT_NAV_LINKS, DEFAULT_MAIN_TITLE⟩⟩

/-- Witness for C2: creating a post titled Hello World in an empty
document and looking up the resolved slug returns the resolved
payload. -/
theorem C2_witness :
    (handle_post_save id "2024-01-01T00:00:00" c2Form none c2Doc).2 = none ∧
    get_post_by_slug (resolved_slug c2Form none)
        (handle_post_save id "2024-01-01T00:00:00" c2Form none c2Doc).1 =
      some (resolved_payload id "2024-01-01T00:00:00" c2Form none (load_posts c2Doc)) :=
  C2_round_trip id "2024-01-01T00:00:00" c2Form none c2Doc
    (by constructor <;> simp [c2Doc])
    (fun e h => nomatch h)
    (by decide)
    (by decide)
    (fun p hp => absurd hp (by simp [c2Doc]))

/-! ## Claim C1: slug uniqueness invariant (corrected)

handle_post_save preserves the invariant and rejects a resolved slug
owned by another post, but the importer does not: the full import
overwrites storage with the parsed posts exactly as they come out of
the export, and a WXR export whose post items share a post_name
produces two posts with the same slug. -/

theorem resolved_payload_slug (renderMd : String → String) (now : String) (form : Form)
    (existing : Option Post) (posts : List Post) :
    (resolved_payload renderMd now form existing posts).slug = resolved_slug form existing := rfl

theorem resolved_payload_id (renderMd : String → String) (now : String) (form : Form)
    (existing : Option Post) (posts : List Post) :
    (resolved_payload renderMd now form existing posts).id = resolved_id posts existing := rfl

theorem resolved_id_none (posts : List Post) : resolved_id posts none = next_id posts := rfl

/-- Claim C1 as amended, part about handle_post_save: on a document
satisfying the invariant (with the edited post, when present, taken
from storage), every outcome of handle_post_save leaves a document
satisfying the invariant, and the save is rejected with the
slug-collision error whenever a post other than the edited one owns
the resolved slug. -/
theorem C1_save_preserves_invariant (renderMd : String → String) (now : String)
    (form : Form) (existing : Option Post) (doc : Document)
    (hinv : PostsInvariant doc.posts)
    (hex : ∀ e, existing = some e → e ∈ doc.posts) :
    PostsInvariant (handle_post_save renderMd now form existing doc).1.posts ∧
    (resolved_title form ≠ "" → resolved_slug form existing ≠ "" →
      (∃ p ∈ load_posts doc, collides (resolved_slug form existing) existing p = true) →
      (handle_post_save renderMd now form existing doc).2 = some .slugExists) := by
  have hslugs : ((load_posts doc).map Post.slug).Nodup :=
    (((List.mergeSort_perm doc.posts postLe).map Post.slug).nodup_iff).mpr hinv.1
  have hids : ((load_posts doc).map Post.id).Nodup := sorted_ids_nodup hinv
  by_cases ht : resolved_title form = ""
  · refine ⟨?_, fun ht' => absurd ht ht'⟩
    simp only [handle_post_save, if_pos ht]
    exact hinv
  by_cases hsl : resolved_slug form existing = ""
  · refine ⟨?_, fun _ hsl' => absurd hsl hsl'⟩
    simp only [handle_post_save, if_neg ht, if_pos hsl]
    exact hinv
  cases hany : (load_posts doc).any (collides (resolved_slug form existing) existing) with
  | true =>
    constructor
    · have : (handle_post_save renderMd now form existing doc).1 = doc := by
        simp [handle_post_save, ht, hsl, hany]
      rw [this]
      exact hinv
    · intro _ _ _
      simp [handle_post_save, ht, hsl, hany]
  | false =>
    have hnc := List.any_eq_false.mp hany
    constructor
    · rw [handle_post_save_success renderMd now form existing doc ht hsl hany]
      cases existing with
      | none =>
        constructor
        · show ((load_posts doc ++
            [resolved_payload renderMd now form none (load_posts doc)]).map Post.slug).Nodup
          simp only [List.map_append, List.map_cons, List.map_nil]
          rw [List.nodup_append]
          refine ⟨hslugs, List.nodup_singleton _, ?_⟩
          intro x hx hx'
          rw [List.mem_singleton] at hx'
          obtain ⟨q, hq, hqs⟩ := List.mem_map.mp hx
          have hcd := hnc q hq
          rw [hx', resolved_payload_slug] at hqs
          simp [collides, hqs] at hcd
        · show ((load_posts doc ++
            [resolved_payload renderMd now form none (load_posts doc)]).map Post.id).Nodup
          simp only [List.map_append, List.map_cons, List.map_nil]
          rw [List.nodup_append]
          refine ⟨hids, List.nodup_singleton _, ?_⟩
          intro x hx hx'
          rw [List.mem_singleton] at hx'
          obtain ⟨q, hq, hqi⟩ := List.mem_map.mp hx
          have hlt := lt_next_id q hq
          rw [hx', resolved_payload_id, resolved_id_none] at hqi
          omega
      | some e =>
        constructor
        · show ((replaceFirstById (load_posts doc) e.id
            (resolved_payload renderMd now form (some e) (load_posts doc))).map Post.slug).Nodup
          apply replaceFirst_slug_nodup hslugs hids
          intro q hq hqs
          have hcd := hnc q hq
          rw [resolved_payload_slug] at hqs
          simp [collides, hqs] at hcd
          exact hcd
        · show ((replaceFirstById (load_posts doc) e.id
            (resolved_payload renderMd now form (some e) (load_posts doc))).map Post.id).Nodup
          rw [replaceFirst_map_id
            (show (resolved_payload renderMd now form (some e) (load_posts doc)).id = e.id
             from rfl)]
          exact hids
    · intro _ _ hex2
      exact absurd (List.any_eq_true.mpr hex2) (by simp [hany])

def c1CexItems : List WpItem :=
  [{ post_type := some "post", title := some "First", post_name := some "a",
     post_id := some "1" },
   { post_type := some "post", title := some "Second", post_name := some "a",
     post_id := some "2" }]

def c1p1 : Post :=
  { id := 1, slug := "a", title := "First", date := some "2024-01-01T00:00:00",
    modified := "2024-01-01T00:00:00", status := "publish", tags := [],
    categories := [], content_markdown := "", content_html := "", excerpt := "",
    author := "" }

def c1p2 : Post :=
  { id := 2, slug := "a", title := "Second", date := some "2024-01-01T00:00:00",
    modified := "2024-01-01T00:00:00", status := "publish", tags := [],
    categories := [], content_markdown := "", content_html := "", excerpt := "",
    author := "" }

def c1CexDoc : Document := ⟨[c1p1, c1p2], [], ⟨DEFAULT_NAV_LINKS, ""⟩⟩

/-- Counterexample to claim C1 as stated: the full import of a WXR
export with two post items sharing the post_name a writes a Document
whose posts violate the one-post-per-slug invariant, so not every
operation that writes posts preserves it. -/
theorem C1_counterexample :
    wp_full_import "2024-01-01T00:00:00" c1CexItems = .ok c1CexDoc ∧
    ¬ PostsInvariant c1CexDoc.posts := by
  constructor
  · have h1 : parseItemsGo "2024-01-01T00:00:00" c1CexItems = .ok [c1p1, c1p2] := rfl
    unfold wp_full_import parse_posts
    rw [h1]
    simp only [Except.map]
    rw [List.mergeSort_of_sorted (by decide)]
    rfl
  · intro h
    exact absurd h.1 (by decide)

def c1Post : Post :=
  { id := 1, slug := "a", title := "A", date := some "2024-01-01T00:00:00",
    modified := "2024-01-01T00:00:00", status := "publish", tags := [],
    categories := [], content_markdown := "", content_html := "", excerpt := "",
    author := "admin@bareblog.com" }

def c1Doc : Document := ⟨[c1Post], [], ⟨DEFAULT_NAV_LINKS, DEFAULT_MAIN_TITLE⟩⟩

def c1FormNew : Form := { title := some "B" }

def c1FormDup : Form := { title := some "A" }

/-- Witness for C1: creating a post with a fresh slug preserves the
invariant, and creating one whose title resolves to the slug of the
stored post is rejected with the collision error. -/
theorem C1_witness :
    PostsInvariant (handle_post_save id "2024-01-01T00:00:00" c1FormNew none c1Doc).1.posts ∧
    (handle_post_save id "2024-01-01T00:00:00" c1FormDup none c1Doc).2 = some .slugExists :=
  ⟨(C1_save_preserves_invariant id "2024-01-01T00:00:00" c1FormNew none c1Doc
      ⟨by decide, by decide⟩ (fun e h => nomatch h)).1,
   (C1_save_preserves_invariant id "2024-01-01T00:00:00" c1FormDup none c1Doc
      ⟨by decide, by decide⟩ (fun e h => nomatch h)).2 (by decide) (by decide)
     ⟨c1Post, mem_load_posts.mpr (by simp [c1Doc]), by decide⟩⟩
